import Mathlib

/-!
Verification development for the sub2api gateway (Go sources under
backend/internal).  Each Go function relevant to the checked claims is
shallowly embedded as an executable Lean definition; theorems below settle
the claims against these embeddings.  Strings are Go strings; the byte-level
Go operations strings.Contains, strings.ToLower and strings.Split are
modelled at the character level, which agrees with Go on the ASCII data the
gateway handles.
-/

set_option maxRecDepth 8192

namespace Sub2Api

/-- Occurrence of pat as a contiguous sublist of s. -/
def listInfix (pat s : List Char) : Bool :=
  s.tails.any (fun t => pat.isPrefixOf t)

/-- Model of Go strings.Contains. -/
def strContains (s pat : String) : Bool :=
  listInfix pat.data s.data

/-- Model of Go strings.ToLower. -/
def lowerStr (s : String) : String :=
  ⟨s.data.map Char.toLower⟩

/-- Model of Go strings.TrimSpace. -/
def trimSpace (s : String) : String :=
  ⟨(s.data.dropWhile Char.isWhitespace).reverse.dropWhile Char.isWhitespace |>.reverse⟩

/-- Model of taking the last element of strings.Split(s, slash): the suffix
of s after its last slash character. -/
def afterLastSlash (s : String) : String :=
  ⟨(s.data.reverse.takeWhile (fun c => c ≠ '/')).reverse⟩

/-! ## OpenAI Codex model normalization
Embeds codexModelMap, getNormalizedCodexModel and normalizeCodexModel from
backend/internal/service/openai_codex_transform.go. -/

/-- The explicit requested-model to canonical-model table codexModelMap. -/
def codexModelMap : List (String × String) :=
  [("gpt-5.1-codex", "gpt-5.1-codex"),
   ("gpt-5.1-codex-low", "gpt-5.1-codex"),
   ("gpt-5.1-codex-medium", "gpt-5.1-codex"),
   ("gpt-5.1-codex-high", "gpt-5.1-codex"),
   ("gpt-5.1-codex-max", "gpt-5.1-codex-max"),
   ("gpt-5.1-codex-max-low", "gpt-5.1-codex-max"),
   ("gpt-5.1-codex-max-medium", "gpt-5.1-codex-max"),
   ("gpt-5.1-codex-max-high", "gpt-5.1-codex-max"),
   ("gpt-5.1-codex-max-xhigh", "gpt-5.1-codex-max"),
   ("gpt-5.2", "gpt-5.2"),
   ("gpt-5.2-none", "gpt-5.2"),
   ("gpt-5.2-low", "gpt-5.2"),
   ("gpt-5.2-medium", "gpt-5.2"),
   ("gpt-5.2-high", "gpt-5.2"),
   ("gpt-5.2-xhigh", "gpt-5.2"),
   ("gpt-5.2-codex", "gpt-5.2-codex"),
   ("gpt-5.2-codex-low", "gpt-5.2-codex"),
   ("gpt-5.2-codex-medium", "gpt-5.2-codex"),
   ("gpt-5.2-codex-high", "gpt-5.2-codex"),
   ("gpt-5.2-codex-xhigh", "gpt-5.2-codex"),
   ("gpt-5.1-codex-mini", "gpt-5.1-codex-mini"),
   ("gpt-5.1-codex-mini-medium", "gpt-5.1-codex-mini"),
   ("gpt-5.1-codex-mini-high", "gpt-5.1-codex-mini"),
   ("gpt-5.1", "gpt-5.1"),
   ("gpt-5.1-none", "gpt-5.1"),
   ("gpt-5.1-low", "gpt-5.1"),
   ("gpt-5.1-medium", "gpt-5.1"),
   ("gpt-5.1-high", "gpt-5.1"),
   ("gpt-5.1-chat-latest", "gpt-5.1"),
   ("gpt-5-codex", "gpt-5.1-codex"),
   ("codex-mini-latest", "gpt-5.1-codex-mini"),
   ("gpt-5-codex-mini", "gpt-5.1-codex-mini"),
   ("gpt-5-codex-mini-medium", "gpt-5.1-codex-mini"),
   ("gpt-5-codex-mini-high", "gpt-5.1-codex-mini"),
   ("gpt-5", "gpt-5.1"),
   ("gpt-5-mini", "gpt-5.1"),
   ("gpt-5-nano", "gpt-5.1")]

/-- getNormalizedCodexModel: exact lookup in codexModelMap, then a
case-insensitive scan; Go returns the empty string when nothing matches. -/
def getNormalizedCodexModel (modelID : String) : String :=
  if modelID = "" then ""
  else
    match codexModelMap.lookup modelID with
    | some v => v
    | none =>
      match codexModelMap.find? (fun p => lowerStr p.1 == lowerStr modelID) with
      | some p => p.2
      | none => ""

/-- The substring fallback chain of normalizeCodexModel, applied to the
model id once the explicit map missed. -/
def codexFallback (modelID : String) : String :=
  let normalized := lowerStr modelID
  if strContains normalized "gpt-5.2-codex" || strContains normalized "gpt 5.2 codex" then
    "gpt-5.2-codex"
  else if strContains normalized "gpt-5.2" || strContains normalized "gpt 5.2" then
    "gpt-5.2"
  else if strContains normalized "gpt-5.1-codex-max" || strContains normalized "gpt 5.1 codex max" then
    "gpt-5.1-codex-max"
  else if strContains normalized "gpt-5.1-codex-mini" || strContains normalized "gpt 5.1 codex mini" then
    "gpt-5.1-codex-mini"
  else if strContains normalized "codex-mini-latest" || strContains normalized "gpt-5-codex-mini" || strContains normalized "gpt 5 codex mini" then
    "codex-mini-latest"
  else if strContains normalized "gpt-5.1-codex" || strContains normalized "gpt 5.1 codex" then
    "gpt-5.1-codex"
  else if strContains normalized "gpt-5.1" || strContains normalized "gpt 5.1" then
    "gpt-5.1"
  else if strContains normalized "codex" then
    "gpt-5.1-codex"
  else if strContains normalized "gpt-5" || strContains normalized "gpt 5" then
    "gpt-5.1"
  else "gpt-5.1"

/-- normalizeCodexModel: strip a provider prefix up to the last slash, try
the explicit map, then substring fallback rules, defaulting to gpt-5.1. -/
def normalizeCodexModel (model : String) : String :=
  if model = "" then "gpt-5.1"
  else
    let modelID := if strContains model "/" then afterLastSlash model else model
    let mapped := getNormalizedCodexModel modelID
    if mapped ≠ "" then mapped else codexFallback modelID

/-- The patterns of the substring fallback rules, in rule order. -/
def codexFallbackPatterns : List String :=
  ["gpt-5.2-codex", "gpt 5.2 codex", "gpt-5.2", "gpt 5.2",
   "gpt-5.1-codex-max", "gpt 5.1 codex max",
   "gpt-5.1-codex-mini", "gpt 5.1 codex mini",
   "codex-mini-latest", "gpt-5-codex-mini", "gpt 5 codex mini",
   "gpt-5.1-codex", "gpt 5.1 codex", "gpt-5.1", "gpt 5.1",
   "codex", "gpt-5", "gpt 5"]

/-- A model id matches some substring fallback rule. -/
def matchesAnyFallback (modelID : String) : Bool :=
  codexFallbackPatterns.any (fun pat => strContains (lowerStr modelID) pat)

/-- The canonical set of normalized Codex model names: every value of
codexModelMap together with every substring-fallback result. -/
def canonicalCodexModels : List String :=
  ["gpt-5.1", "gpt-5.1-codex", "gpt-5.1-codex-max", "gpt-5.1-codex-mini",
   "gpt-5.2", "gpt-5.2-codex", "codex-mini-latest"]

/-! ## OpenAI account selection
Embeds SelectAccountForModel from
backend/internal/service/openai_gateway_service.go.  The account fields and
helper predicates are those the selector reads; IsSchedulable and
IsModelSupported live in the model package, embedded here after the data
model in the spec (status/schedulable flags, model-mapping whitelist). -/

structure Account where
  id : Int
  platform : String
  status : String
  schedulable : Bool
  priority : Int
  lastUsedAt : Option Int
  modelMapping : List (String × String)
deriving DecidableEq, Repr

/-- Account.IsSchedulable: active status and the schedulable flag. -/
def Account.isSchedulable (a : Account) : Bool :=
  a.status == "active" && a.schedulable

/-- Account.IsOpenAI: platform tag check. -/
def Account.isOpenAI (a : Account) : Bool :=
  a.platform == "openai"

/-- Modelled from the spec: Account.IsModelSupported is not among the
provided sources; per the spec, identity entries of model_mapping form a
whitelist, absence of an entry denies only when that whitelist is
non-empty. -/
def Account.isModelSupported (a : Account) (m : String) : Bool :=
  if a.modelMapping.filter (fun p => p.1 == p.2) = [] then true
  else (a.modelMapping.lookup m).isSome

/-- Cache effects the selector can issue on the sticky-session store. -/
inductive CacheOp where
  | refreshTTL (key : String)
  | setSession (key : String) (accountID : Int)
  | deleteSession (key : String)
deriving DecidableEq, Repr

/-- Collaborator results consumed by one SelectAccountForModel call:
the sticky cache read (none models error or miss), the GetByID lookup,
and the schedulable-accounts listing for the platform or group. -/
structure SelectorEnv where
  stickyID : Option Int
  getByID : Int → Option Account
  accounts : List Account

/-- One iteration of the priority plus least-recently-used selection loop. -/
def selectStep (m : String) (selected : Option Account) (acc : Account) : Option Account :=
  if !(m == "") && !(acc.isModelSupported m) then selected
  else
    match selected with
    | none => some acc
    | some sel =>
      if acc.priority < sel.priority then some acc
      else if acc.priority = sel.priority then
        match acc.lastUsedAt, sel.lastUsedAt with
        | none, _ => some acc
        | some t, some ts => if t < ts then some acc else some sel
        | some _, none => some sel
      else some sel

/-- The candidate-ranking loop of SelectAccountForModel. -/
def selectBest (accounts : List Account) (m : String) : Option Account :=
  accounts.foldl (selectStep m) none

/-- The sticky cache key for an OpenAI session hash. -/
def sessionKey (sessionHash : String) : String := "openai:" ++ sessionHash

/-- SelectAccountForModel: the sticky short-circuit, then the ranking loop,
then the sticky write; the second component is the trace of cache effects. -/
def selectAccountForModel (env : SelectorEnv) (sessionHash requestedModel : String) :
    Option Account × List CacheOp :=
  let sticky : Option Account :=
    if sessionHash ≠ "" then
      match env.stickyID with
      | some accountID =>
        if accountID > 0 then
          match env.getByID accountID with
          | some account =>
            if account.isSchedulable && account.isOpenAI &&
                (requestedModel == "" || account.isModelSupported requestedModel) then
              some account
            else none
          | none => none
        else none
      | none => none
    else none
  match sticky with
  | some account => (some account, [CacheOp.refreshTTL (sessionKey sessionHash)])
  | none =>
    match selectBest env.accounts requestedModel with
    | none => (none, [])
    | some selected =>
      (some selected,
       if sessionHash ≠ "" then [CacheOp.setSession (sessionKey sessionHash) selected.id]
       else [])

/-- Ordering on last-used timestamps with never-used sorting oldest. -/
def lastUsedLE : Option Int → Option Int → Prop
  | none, _ => True
  | some _, none => False
  | some x, some y => x ≤ y

/-- The selection key order: ascending priority, then oldest last-used. -/
def keyLE (a b : Account) : Prop :=
  a.priority < b.priority ∨ (a.priority = b.priority ∧ lastUsedLE a.lastUsedAt b.lastUsedAt)

/-- An account passes the model filter of the ranking loop. -/
def eligibleFor (m : String) (b : Account) : Prop :=
  (m == "" || b.isModelSupported m) = true

/-- Sticky binding bound to an unschedulable account (for claim C1). -/
def c1StickyAccount : Account := ⟨7, "openai", "active", false, 1, none, []⟩

/-- Selector environment whose sticky binding points at c1StickyAccount. -/
def c1Env : SelectorEnv :=
  ⟨some 7, fun i => if i = 7 then some c1StickyAccount else none, []⟩

/-- Schedulable sticky account (for the claim C1 witness). -/
def c1wAccount : Account := ⟨7, "openai", "active", true, 1, none, []⟩

/-- Selector environment whose sticky binding points at c1wAccount. -/
def c1wEnv : SelectorEnv :=
  ⟨some 7, fun i => if i = 7 then some c1wAccount else none, []⟩

/-- First of two accounts tying on priority and last-used (claim C2). -/
def c2AccountA : Account := ⟨1, "openai", "active", true, 1, none, []⟩

/-- Second of two accounts tying on priority and last-used (claim C2). -/
def c2AccountB : Account := ⟨2, "openai", "active", true, 1, none, []⟩

/-- Lower-priority-value account for the claim C2 witness. -/
def c2wA : Account := ⟨1, "openai", "active", true, 2, none, []⟩

/-- Higher-priority account for the claim C2 witness. -/
def c2wB : Account := ⟨2, "openai", "active", true, 1, none, []⟩


/-! ## Orphaned tool outputs
Embeds normalizeOrphanedToolOutputs, getCallID and
convertOrphanedOutputToMessage from
backend/internal/service/openai_codex_transform.go.  An input item is
modelled by the four fields the code reads: its type, the raw call_id
(empty models absent), the tool name (empty models absent) and the
stringified output text. -/


/-- The fields of one Codex input item the orphan pass reads. -/
structure Item where
  type_ : String
  callId : String
  name : String
  output : String
deriving DecidableEq, Repr

/-- getCallID: the trimmed call_id, empty when absent or blank. -/
def getCallID (item : Item) : String := trimSpace item.callId

/-- The set of non-empty call ids of items of one call type, as collected
by the first pass of normalizeOrphanedToolOutputs. -/
def callIDsOfType (t : String) (input : List Item) : List String :=
  (input.filter (fun i => i.type_ == t && !(getCallID i == ""))).map getCallID

/-- An output slot: the original item kept, or a converted plain message. -/
inductive OutItem where
  | orig (item : Item)
  | msg (type_ role content : String)
deriving DecidableEq, Repr

/-- The 16000-character output truncation of convertOrphanedOutputToMessage. -/
def truncateOutput (text : String) : String :=
  if text.length > 16000 then String.mk (text.data.take 16000) ++ "\n...[truncated]" else text

/-- convertOrphanedOutputToMessage: rewrite an orphaned tool output into a
plain assistant message preserving tool name, call id and output text. -/
def convertOrphanedOutputToMessage (item : Item) (callID : String) : OutItem :=
  let toolName := if item.name ≠ "" then item.name else "tool"
  let labelID := if callID = "" then "unknown" else callID
  let text := truncateOutput item.output
  OutItem.msg "message" "assistant"
    ("[Previous " ++ toolName ++ " result; call_id=" ++ labelID ++ "]: " ++ text)

/-- The per-item second pass of normalizeOrphanedToolOutputs, given the
collected call-id sets of the whole input list. -/
def orphanTransformItem (input : List Item) (i : Item) : OutItem :=
  if i.type_ == "function_call_output" then
    let cid := getCallID i
    if cid == "" ||
        !((callIDsOfType "function_call" input).contains cid ||
          (callIDsOfType "local_shell_call" input).contains cid) then
      convertOrphanedOutputToMessage i cid
    else OutItem.orig i
  else if i.type_ == "custom_tool_call_output" then
    let cid := getCallID i
    if cid == "" || !((callIDsOfType "custom_tool_call" input).contains cid) then
      convertOrphanedOutputToMessage i cid
    else OutItem.orig i
  else if i.type_ == "local_shell_call_output" then
    let cid := getCallID i
    if cid == "" || !((callIDsOfType "local_shell_call" input).contains cid) then
      convertOrphanedOutputToMessage i cid
    else OutItem.orig i
  else OutItem.orig i

/-- normalizeOrphanedToolOutputs: convert every tool output whose call id
matches no call item in the input list into a plain assistant message. -/
def normalizeOrphanedToolOutputs (input : List Item) : List OutItem :=
  input.map (orphanTransformItem input)

/-- The three tool-output item types the orphan pass rewrites. -/
def isToolOutputType (t : String) : Bool :=
  t == "function_call_output" || t == "custom_tool_call_output" || t == "local_shell_call_output"

/-- The call-id set an output item of the given type is matched against:
function_call_output also accepts local_shell_call ids. -/
def matchingIDsFor (input : List Item) (outputType : String) : List String :=
  if outputType == "function_call_output" then
    callIDsOfType "function_call" input ++ callIDsOfType "local_shell_call" input
  else if outputType == "custom_tool_call_output" then callIDsOfType "custom_tool_call" input
  else if outputType == "local_shell_call_output" then callIDsOfType "local_shell_call" input
  else []

/-- A function_call_output whose matching call appears only later. -/
def c3Out : Item := ⟨"function_call_output", "X", "", "hi"⟩

/-- The function_call following its own output in the list. -/
def c3Call : Item := ⟨"function_call", "X", "", ""⟩

/-- An orphaned custom_tool_call_output for the claim C3 witness. -/
def c3wItem : Item := ⟨"custom_tool_call_output", "Y", "mytool", "out"⟩


/-! ## Upstream header construction
Embeds buildUpstreamRequest from
backend/internal/service/openai_gateway_service.go restricted to its header
effects.  An HMap is a Go http.Header: keys are modelled in canonical
lowercase form; hset is Header.Set, hadd is Header.Add, hvals reads all
values of one key. -/


/-- A header map: association list from key to values. -/
abbrev HMap := List (String × List String)

/-- All values stored under a key. -/
def hvals (m : HMap) (k : String) : List String :=
  match m.find? (fun p => p.1 == k) with
  | some p => p.2
  | none => []

/-- Model of Header.Get: first value or empty. -/
def hget (m : HMap) (k : String) : String :=
  (hvals m k).headD ""

/-- Model of Header.Set: replace all values of the key. -/
def hset (m : HMap) (k v : String) : HMap :=
  (k, [v]) :: m.filter (fun p => !(p.1 == k))

/-- Model of Header.Add: append one value to the key. -/
def hadd (m : HMap) (k v : String) : HMap :=
  (k, hvals m k ++ [v]) :: m.filter (fun p => !(p.1 == k))

/-- The openaiAllowedHeaders whitelist of forwarded inbound headers. -/
def openaiAllowedHeaders : List String :=
  ["accept-language", "content-type", "user-agent", "originator", "session_id"]

/-- The account fields buildUpstreamRequest reads for headers. -/
structure UpstreamAccount where
  type_ : String
  chatgptAccountID : String
  customUA : String

/-- The whitelist passthrough loop over the inbound headers. -/
def whitelistFold (inbound : HMap) (m : HMap) : HMap :=
  inbound.foldl
    (fun m p =>
      if openaiAllowedHeaders.contains (lowerStr p.1) then
        p.2.foldl (fun m v => hadd m (lowerStr p.1) v) m
      else m) m

/-- The headers set before the whitelist loop: the replaced authorization plus the OAuth-specific chatgpt-account-id and accept headers. -/
def baseHeaders (account : UpstreamAccount) (token : String) (isStream : Bool) : HMap :=
  let m := hset [] "authorization" ("Bearer " ++ token)
  if account.type_ == "oauth" then
    let m :=
      if account.chatgptAccountID ≠ "" then hset m "chatgpt-account-id" account.chatgptAccountID
      else m
    if isStream then hset m "accept" "text/event-stream" else hset m "accept" "application/json"
  else m

/-- The steps after the whitelist loop: the custom user-agent override and the content-type default. -/
def finishHeaders (account : UpstreamAccount) (m : HMap) : HMap :=
  let m2 := if account.customUA ≠ "" then hset m "user-agent" account.customUA else m
  if hget m2 "content-type" == "" then hset m2 "content-type" "application/json" else m2

/-- The header effects of buildUpstreamRequest, composed in source order. -/
def buildUpstreamHeaders (account : UpstreamAccount) (token : String) (isStream : Bool)
    (inbound : HMap) : HMap :=
  finishHeaders account (whitelistFold inbound (baseHeaders account token isStream))


/-! ## Response model rewriting
Embeds replaceModelInSSELine and replaceModelInResponseBody from
backend/internal/service/openai_gateway_service.go at the level of parsed
JSON values: JVal models a decoded JSON document (strings, objects, and an
opaque tag for the remaining kinds); the unmarshal/marshal round trip of
the Go code is the identity at this level, and a line that fails to parse
is returned unchanged upstream of these functions. -/


/-- A decoded JSON value as far as the rewrite inspects it. -/
inductive JVal where
  | str (s : String)
  | obj (fields : List (String × JVal))
  | other (tag : Nat)
deriving Repr

/-- Reading a key of a JSON object. -/
def jlookup (fields : List (String × JVal)) (k : String) : Option JVal :=
  (fields.find? (fun p => p.1 == k)).map (fun p => p.2)

/-- Assigning an existing key of a JSON object. -/
def jset : List (String × JVal) → String → JVal → List (String × JVal)
  | [], _, _ => []
  | p :: t, k, v => if p.1 == k then (k, v) :: jset t k v else p :: jset t k v

/-- The nested response.model rewrite branch of replaceModelInSSELine. -/
def replaceNestedModel (event : List (String × JVal)) (fromModel toModel : String) :
    List (String × JVal) :=
  match jlookup event "response" with
  | some (JVal.obj rfields) =>
    match jlookup rfields "model" with
    | some (JVal.str m) =>
      if m == fromModel then
        jset event "response" (JVal.obj (jset rfields "model" (JVal.str toModel)))
      else event
    | _ => event
  | _ => event

/-- replaceModelInSSELine on a parsed event: replace a matching top-level model and return, else try the nested response.model. -/
def replaceModelInSSEEvent (event : List (String × JVal)) (fromModel toModel : String) :
    List (String × JVal) :=
  match jlookup event "model" with
  | some (JVal.str m) =>
    if m == fromModel then jset event "model" (JVal.str toModel)
    else replaceNestedModel event fromModel toModel
  | _ => replaceNestedModel event fromModel toModel

/-- replaceModelInResponseBody: replace only a matching top-level model field. -/
def replaceModelInResponseBody (resp : List (String × JVal)) (fromModel toModel : String) :
    List (String × JVal) :=
  match jlookup resp "model" with
  | some (JVal.str m) =>
    if m == fromModel then jset resp "model" (JVal.str toModel) else resp
  | _ => resp

/-- A response body whose model field sits only under response (claim C6). -/
def c6Body : List (String × JVal) := [("response", JVal.obj [("model", JVal.str "gpt-5.2")])]

/-- An SSE event with a matching top-level model field (claim C6 witness). -/
def c6Event : List (String × JVal) :=
  [("type", JVal.str "response.created"), ("model", JVal.str "gpt-5.2")]


/-! ## SSE streaming loop
Embeds handleStreamingResponse and parseSSEUsage from
backend/internal/service/openai_gateway_service.go.  Lines are modelled as
parsed SSE payloads; the client writer is a function from write index to
success, modelling the gin ResponseWriter.  Model replacement is the
identity in what follows (the claim needs only the control flow), and the
timing of the first token is abstracted to its line index. -/

/-- The OpenAIUsage counters the streaming loop accumulates. -/
structure OpenAIUsage where
  inputTokens : Nat
  outputTokens : Nat
  cacheCreationInputTokens : Nat
  cacheReadInputTokens : Nat
deriving DecidableEq, Repr

/-- The usage triple carried by a response.completed event. -/
structure SSEUsage where
  inputTokens : Nat
  outputTokens : Nat
  cachedTokens : Nat
deriving DecidableEq, Repr

/-- The payload of one data line, as far as the tee inspects it: the DONE sentinel, an empty payload, or an event with a type and usage. -/
inductive SSEPayload where
  | done
  | empty
  | event (type_ : String) (usage : SSEUsage)
deriving DecidableEq, Repr

/-- One upstream SSE line: blank, or a data-prefixed payload. -/
inductive SSELine where
  | blank
  | data (payload : SSEPayload)
deriving DecidableEq, Repr

/-- parseSSEUsage: a response.completed event overwrites the input, output and cache-read counters. -/
def parseSSEUsage (p : SSEPayload) (usage : OpenAIUsage) : OpenAIUsage :=
  match p with
  | SSEPayload.event t u =>
    if t == "response.completed" then
      { usage with
        inputTokens := u.inputTokens
        outputTokens := u.outputTokens
        cacheReadInputTokens := u.cachedTokens }
    else usage
  | _ => usage

/-- The observable outcome of handleStreamingResponse: accumulated usage, index of the first token line, and whether the call returned a write error. -/
structure StreamResult where
  usage : OpenAIUsage
  firstTokenIndex : Option Nat
  writeError : Bool
deriving DecidableEq, Repr

/-- The scan loop of handleStreamingResponse: each line is written to the client (writeOk says whether write number i succeeds); a failed write returns immediately with the usage gathered so far; otherwise first-token tracking and usage parsing run on data lines. -/
def handleStreamingLoop (writeOk : Nat → Bool) :
    List SSELine → Nat → OpenAIUsage → Option Nat → StreamResult
  | [], _, usage, ft => ⟨usage, ft, false⟩
  | l :: rest, i, usage, ft =>
    if writeOk i = false then ⟨usage, ft, true⟩
    else
      match l with
      | SSELine.blank => handleStreamingLoop writeOk rest (i + 1) usage ft
      | SSELine.data p =>
        let ft2 :=
          if ft = none ∧ p ≠ SSEPayload.done ∧ p ≠ SSEPayload.empty then some i else ft
        handleStreamingLoop writeOk rest (i + 1) (parseSSEUsage p usage) ft2

/-- handleStreamingResponse from backend/internal/service/openai_gateway_service.go over a parsed upstream line sequence and a client-writer behavior. -/
def handleStreamingResponse (writeOk : Nat → Bool) (lines : List SSELine) : StreamResult :=
  handleStreamingLoop writeOk lines 0 ⟨0, 0, 0, 0⟩ none

/-- The upstream stream of the client-disconnect test: a delta, the usage-bearing response.completed event, and the DONE sentinel. -/
def c7Lines : List SSELine :=
  [SSELine.data (SSEPayload.event "response.output_text.delta" ⟨0, 0, 0⟩),
   SSELine.blank,
   SSELine.data (SSEPayload.event "response.completed" ⟨11, 7, 3⟩),
   SSELine.blank,
   SSELine.data SSEPayload.done,
   SSELine.blank]

/-- A client writer whose first write succeeds and later writes fail. -/
def failAfterOne : Nat → Bool := fun i => i == 0

/-! ## Concurrency admission
Embeds the admission prefix of the Responses handler from
backend/internal/handler/openai_gateway_handler.go together with
handleConcurrencyError, over the outcomes of its cache and slot
collaborators. -/

/-- What the admission prefix of the Responses handler produces: an error response or the forwarded request. -/
inductive AdmissionOutcome where
  | reject (status : Nat) (errType : String) (message : String)
  | forwarded
deriving DecidableEq, Repr

/-- The admission prefix of Responses (openai_gateway_handler.go): the wait-queue counter (none models a cache error, which is logged and ignored), then the user and account slot acquisitions, whose errors are mapped by handleConcurrencyError. -/
def admissionPipeline (incrWait : Option Bool) (userSlotErr accountSlotErr : Bool) :
    AdmissionOutcome :=
  match incrWait with
  | some false =>
    AdmissionOutcome.reject 429 "rate_limit_error"
      "Too many pending requests, please retry later"
  | _ =>
    if userSlotErr then
      AdmissionOutcome.reject 429 "rate_limit_error"
        "Concurrency limit exceeded for user, please retry later"
    else if accountSlotErr then
      AdmissionOutcome.reject 429 "rate_limit_error"
        "Concurrency limit exceeded for account, please retry later"
    else AdmissionOutcome.forwarded

/-! ## OpenAI passthrough instructions gate
The passthrough-mode Forward path is exercised only by its tests in the
provided sources; the gate is modelled from the spec (section 4.3.3,
passthrough mode). -/

/-- Modelled from the spec: the passthrough Forward implementation is absent from the provided sources; per the spec and its tests, the official Codex client families are codex_cli_rs, codex_vscode and codex_app. -/
def isOfficialCodexClient (ua : String) : Bool :=
  strContains ua "codex_cli_rs" || strContains ua "codex_vscode" || strContains ua "codex_app"

/-- Modelled from the spec: the Codex model family test of the missing passthrough Forward; a model belongs to it when its normalized name is a codex variant. -/
def isCodexFamilyModel (m : String) : Bool :=
  strContains (normalizeCodexModel m) "codex"

/-- The local decision of the passthrough Forward: a local rejection, or the body handed to the upstream call with forced store and stream flags. -/
inductive PassthroughOutcome where
  | reject (status : Nat) (message : String)
  | upstream (store stream : Bool) (instructions : String)
deriving DecidableEq, Repr

/-- Modelled from the spec: the OpenAI passthrough request gate of Forward, absent from the provided sources. Non-Codex clients are rejected when codex_cli_only is set; a Codex-family model with empty instructions from an official Codex client is rejected 403 before any upstream contact; otherwise store is forced false, stream forced true, instructions left intact. -/
def passthroughForward (codexCliOnly : Bool) (model ua instructions : String) :
    PassthroughOutcome :=
  if codexCliOnly && !(isOfficialCodexClient ua) then
    PassthroughOutcome.reject 403 "This account only serves Codex official clients"
  else if trimSpace instructions == "" && isCodexFamilyModel model && isOfficialCodexClient ua then
    PassthroughOutcome.reject 403
      "OpenAI passthrough: the Codex model family requires a non-empty instructions field"
  else
    PassthroughOutcome.upstream false true instructions

/-! ## Image pricing
BillingService.CalculateImageCost is exercised only by its unit tests in
the provided sources; the pricing rules are modelled from the spec
(section 4.8) as pinned down by those tests.  Prices are rationals. -/

/-- The per-group image price override table, one optional price per size. -/
structure ImagePriceConfig where
  price1K : Option ℚ
  price2K : Option ℚ
  price4K : Option ℚ
deriving DecidableEq

/-- The cost pair produced by image cost calculation. -/
structure CostBreakdown where
  totalCost : ℚ
  actualCost : ℚ
deriving DecidableEq

/-- Modelled from the spec: the hard-coded default 1K image price pinned by the pricing unit tests (0.134 dollars). -/
def defaultImagePrice1K : ℚ := 134 / 1000

/-- Modelled from the spec: default per-image prices; BillingService.CalculateImageCost is absent from the provided sources, and the unit tests pin 2K at 1.5 times and 4K at 2 times the 1K price. -/
def defaultImagePrice (size : String) : ℚ :=
  if size == "4K" then defaultImagePrice1K * 2
  else if size == "2K" then defaultImagePrice1K * (3 / 2)
  else defaultImagePrice1K

/-- Modelled from the spec: the group-overridden price for the size when configured, with fallback to the defaults. -/
def getImageUnitPrice (size : String) (groupConfig : Option ImagePriceConfig) : ℚ :=
  match groupConfig with
  | some cfg =>
    if size == "1K" then cfg.price1K.getD (defaultImagePrice "1K")
    else if size == "2K" then cfg.price2K.getD (defaultImagePrice "2K")
    else if size == "4K" then cfg.price4K.getD (defaultImagePrice "4K")
    else defaultImagePrice size
  | none => defaultImagePrice size

/-- Modelled from the spec: CalculateImageCost as pinned by its unit tests; non-positive counts cost zero, a zero rate multiplier is treated as one, total is unit price times count, actual is total times the multiplier. -/
def CalculateImageCost (size : String) (imageCount : Int)
    (groupConfig : Option ImagePriceConfig) (rateMultiplier : ℚ) : CostBreakdown :=
  if imageCount ≤ 0 then ⟨0, 0⟩
  else
    let multiplier := if rateMultiplier = 0 then 1 else rateMultiplier
    let unit := getImageUnitPrice size groupConfig
    let total := unit * (imageCount : ℚ)
    ⟨total, total * multiplier⟩

/-! ## Supporting lemmas for model normalization -/

theorem lookup_mem_snd {l : List (String × String)} {k v : String}
    (h : l.lookup k = some v) : v ∈ l.map Prod.snd := by
  induction l with
  | nil => simp [List.lookup] at h
  | cons p t ih =>
    obtain ⟨a, b⟩ := p
    rw [List.lookup] at h
    by_cases hk : k = a
    · subst hk
      simp at h
      simp [h]
    · have hne : (k == a) = false := beq_false_of_ne hk
      rw [hne] at h
      simp [ih h]

theorem codexModelMap_values :
    ∀ p ∈ codexModelMap, p.2 ∈ canonicalCodexModels := by decide

theorem getNormalizedCodexModel_mem (id : String) :
    getNormalizedCodexModel id = "" ∨ getNormalizedCodexModel id ∈ canonicalCodexModels := by
  unfold getNormalizedCodexModel
  split
  · exact Or.inl rfl
  · split
    · next v hv =>
      right
      have hmem := lookup_mem_snd hv
      rw [List.mem_map] at hmem
      obtain ⟨p, hp, hpv⟩ := hmem
      exact hpv ▸ codexModelMap_values p hp
    · split
      · next p hp =>
        right
        exact codexModelMap_values p (List.mem_of_find?_eq_some hp)
      · exact Or.inl rfl

theorem codexFallback_mem (id : String) :
    codexFallback id ∈ canonicalCodexModels := by
  unfold codexFallback
  dsimp only
  split
  · decide
  split
  · decide
  split
  · decide
  split
  · decide
  split
  · decide
  split
  · decide
  split
  · decide
  split
  · decide
  split
  · decide
  · decide

theorem normalizeCodexModel_mem (s : String) :
    normalizeCodexModel s ∈ canonicalCodexModels := by
  unfold normalizeCodexModel
  split
  · decide
  · dsimp only
    rcases getNormalizedCodexModel_mem
        (if strContains s "/" = true then afterLastSlash s else s) with h | h
    · rw [h]
      simp only [ne_eq, not_true_eq_false, if_false, ite_false]
      exact codexFallback_mem _
    · have hne : getNormalizedCodexModel
          (if strContains s "/" = true then afterLastSlash s else s) ≠ "" := by
        intro he
        rw [he] at h
        exact absurd h (by decide)
      rw [if_pos hne]
      exact h

theorem normalizeCodexModel_default (s : String)
    (hmap : getNormalizedCodexModel (if strContains s "/" = true then afterLastSlash s else s) = "")
    (hfb : matchesAnyFallback (if strContains s "/" = true then afterLastSlash s else s) = false) :
    normalizeCodexModel s = "gpt-5.1" := by
  unfold normalizeCodexModel
  split
  · rfl
  · dsimp only
    rw [hmap]
    simp only [ne_eq, not_true_eq_false, if_false, ite_false]
    unfold codexFallback
    dsimp only
    simp only [matchesAnyFallback, codexFallbackPatterns, List.any_cons, List.any_nil,
      Bool.or_eq_false_iff] at hfb
    obtain ⟨h1, h2, h3, h4, h5, h6, h7, h8, h9, h10, h11, h12, h13, h14, h15, h16, h17, h18, -⟩ := hfb
    rw [h1, h2, h3, h4, h5, h6, h7, h8, h9, h10, h11, h12, h13, h14, h15, h16, h17, h18]
    simp

/-! ## Supporting lemmas and claims for account selection -/

theorem lastUsedLE_refl (o : Option Int) : lastUsedLE o o := by
  cases o <;> simp [lastUsedLE]

theorem lastUsedLE_trans {o1 o2 o3 : Option Int}
    (h12 : lastUsedLE o1 o2) (h23 : lastUsedLE o2 o3) : lastUsedLE o1 o3 := by
  cases o1 <;> cases o2 <;> cases o3 <;> simp_all [lastUsedLE]
  omega

theorem keyLE_refl (a : Account) : keyLE a a :=
  Or.inr ⟨rfl, lastUsedLE_refl _⟩

theorem keyLE_trans {a b c : Account} (hab : keyLE a b) (hbc : keyLE b c) : keyLE a c := by
  rcases hab with h | ⟨he, hl⟩
  · rcases hbc with h2 | ⟨he2, _⟩
    · exact Or.inl (lt_trans h h2)
    · exact Or.inl (he2 ▸ h)
  · rcases hbc with h2 | ⟨he2, hl2⟩
    · exact Or.inl (he ▸ h2)
    · exact Or.inr ⟨he.trans he2, lastUsedLE_trans hl hl2⟩

theorem selectStep_skip {m : String} {sel : Option Account} {acc : Account}
    (h : ¬ eligibleFor m acc) : selectStep m sel acc = sel := by
  unfold selectStep
  rw [if_pos]
  unfold eligibleFor at h
  simp only [Bool.or_eq_true, not_or, Bool.not_eq_true] at h
  simp [h.1, h.2]

theorem selectStep_pick {m : String} {sel : Option Account} {acc : Account}
    (h : eligibleFor m acc) :
    ∃ s', selectStep m sel acc = some s' ∧ (s' = acc ∨ sel = some s') ∧
      keyLE s' acc ∧ (∀ s, sel = some s → keyLE s' s) := by
  unfold selectStep
  rw [if_neg]
  · cases sel with
    | none =>
      exact ⟨acc, rfl, Or.inl rfl, keyLE_refl acc, by intro s hs; cases hs⟩
    | some sel =>
      by_cases hp : acc.priority < sel.priority
      · refine ⟨acc, by simp [hp], Or.inl rfl, keyLE_refl acc, ?_⟩
        intro s hs
        cases hs
        exact Or.inl hp
      · by_cases he : acc.priority = sel.priority
        · cases hacc : acc.lastUsedAt with
          | none =>
            refine ⟨acc, by simp [hp, he, hacc], Or.inl rfl, keyLE_refl acc, ?_⟩
            intro s hs
            cases hs
            exact Or.inr ⟨he, by simp [lastUsedLE, hacc]⟩
          | some t =>
            cases hsel : sel.lastUsedAt with
            | none =>
              refine ⟨sel, by simp [hp, he, hacc, hsel], Or.inr rfl, ?_, ?_⟩
              · exact Or.inr ⟨he.symm, by simp [lastUsedLE, hsel]⟩
              · intro s hs
                cases hs
                exact keyLE_refl sel
            | some ts =>
              by_cases ht : t < ts
              · refine ⟨acc, by simp [hp, he, hacc, hsel, ht], Or.inl rfl, keyLE_refl acc, ?_⟩
                intro s hs
                cases hs
                exact Or.inr ⟨he, by simp [lastUsedLE, hacc, hsel]; omega⟩
              · refine ⟨sel, by simp [hp, he, hacc, hsel, ht], Or.inr rfl, ?_, ?_⟩
                · exact Or.inr ⟨he.symm, by simp [lastUsedLE, hacc, hsel]; omega⟩
                · intro s hs
                  cases hs
                  exact keyLE_refl sel
        · refine ⟨sel, by simp [hp, he], Or.inr rfl, Or.inl ?_, ?_⟩
          · omega
          · intro s hs
            cases hs
            exact keyLE_refl sel
  · unfold eligibleFor at h
    intro hc
    simp only [Bool.and_eq_true, Bool.not_eq_true'] at hc
    simp [hc.1, hc.2] at h

theorem selectBest_go {m : String} :
    ∀ (l : List Account) (sel : Option Account) (a : Account),
      l.foldl (selectStep m) sel = some a →
      (∀ s, sel = some s → eligibleFor m s) →
      eligibleFor m a ∧ (∀ s, sel = some s → keyLE a s) ∧
        (∀ b ∈ l, eligibleFor m b → keyLE a b) ∧ (a ∈ l ∨ sel = some a) := by
  intro l
  induction l with
  | nil =>
    intro sel a hfold hsel
    simp only [List.foldl_nil] at hfold
    exact ⟨hsel a hfold, fun s hs => by rw [hfold] at hs; cases hs; exact keyLE_refl a,
      fun b hb => absurd hb (List.not_mem_nil b), Or.inr hfold⟩
  | cons acc rest ih =>
    intro sel a hfold hsel
    rw [List.foldl_cons] at hfold
    by_cases hel : eligibleFor m acc
    · obtain ⟨s', hstep, hs'src, hs'acc, hs'sel⟩ := @selectStep_pick m sel acc hel
      rw [hstep] at hfold
      have hsel' : ∀ s, (some s' : Option Account) = some s → eligibleFor m s := by
        intro s hs
        cases hs
        rcases hs'src with h | h
        · exact h ▸ hel
        · exact hsel s' h
      obtain ⟨hae, hkSel, hkRest, hmem⟩ := ih (some s') a hfold hsel'
      have haS' : keyLE a s' := hkSel s' rfl
      refine ⟨hae, ?_, ?_, ?_⟩
      · intro s hs
        exact keyLE_trans haS' (hs'sel s hs)
      · intro b hb hbel
        rcases List.mem_cons.mp hb with hb | hb
        · subst hb
          exact keyLE_trans haS' hs'acc
        · exact hkRest b hb hbel
      · rcases hmem with hm | hm
        · exact Or.inl (List.mem_cons_of_mem _ hm)
        · rcases hs'src with h | h
          · cases hm
            exact Or.inl (h ▸ List.mem_cons_self _ _)
          · cases hm
            exact Or.inr h
    · rw [selectStep_skip hel] at hfold
      obtain ⟨hae, hkSel, hkRest, hmem⟩ := ih sel a hfold hsel
      refine ⟨hae, hkSel, ?_, ?_⟩
      · intro b hb hbel
        rcases List.mem_cons.mp hb with hb | hb
        · subst hb
          exact absurd hbel hel
        · exact hkRest b hb hbel
      · rcases hmem with hm | hm
        · exact Or.inl (List.mem_cons_of_mem _ hm)
        · exact Or.inr hm

theorem selectBest_minimal {accounts : List Account} {m : String} {a : Account}
    (h : selectBest accounts m = some a) :
    a ∈ accounts ∧ eligibleFor m a ∧
      ∀ b ∈ accounts, eligibleFor m b → keyLE a b := by
  unfold selectBest at h
  obtain ⟨hae, _, hkRest, hmem⟩ := selectBest_go accounts none a h (by intro s hs; cases hs)
  rcases hmem with hm | hm
  · exact ⟨hm, hae, hkRest⟩
  · cases hm

/-- C2 (amended): the selected account comes from the candidate list,
supports the requested model, and is minimal for ascending priority with
ties broken by oldest last-used (never-used oldest); the current in-flight
count is not consulted and residual ties follow list position, not
ascending id. -/
theorem claim_C2_selection_order (accounts : List Account) (m : String) (a : Account)
    (h : selectBest accounts m = some a) :
    a ∈ accounts ∧ (m ≠ "" → a.isModelSupported m = true) ∧
      ∀ b ∈ accounts, (m = "" ∨ b.isModelSupported m = true) →
        (a.priority < b.priority ∨
          (a.priority = b.priority ∧ lastUsedLE a.lastUsedAt b.lastUsedAt)) := by
  obtain ⟨hmem, hel, hmin⟩ := selectBest_minimal h
  refine ⟨hmem, ?_, ?_⟩
  · intro hm
    unfold eligibleFor at hel
    simp only [Bool.or_eq_true, beq_iff_eq] at hel
    rcases hel with hel | hel
    · exact absurd hel hm
    · exact hel
  · intro b hb hbel
    refine hmin b hb ?_
    unfold eligibleFor
    simp only [Bool.or_eq_true, beq_iff_eq]
    exact hbel

/-- C2 counterexample: two candidates tie on priority and on last-used
(both never used), so the claimed id-ascending tie-break would return the
account with id 1; the ranking loop returns the one with id 2. -/
theorem claim_C2_counterexample :
    selectBest [c2AccountA, c2AccountB] "" = some c2AccountB ∧
    c2AccountA.priority = c2AccountB.priority ∧
    c2AccountA.lastUsedAt = none ∧ c2AccountB.lastUsedAt = none ∧
    c2AccountA.id < c2AccountB.id := by decide

/-- C2 witness: the amended ordering theorem applied to a concrete
two-account candidate list. -/
theorem claim_C2_witness :
    c2wB ∈ [c2wA, c2wB] ∧ ("gpt-5.2" ≠ "" → c2wB.isModelSupported "gpt-5.2" = true) ∧
      ∀ b ∈ [c2wA, c2wB], ("gpt-5.2" = "" ∨ b.isModelSupported "gpt-5.2" = true) →
        (c2wB.priority < b.priority ∨
          (c2wB.priority = b.priority ∧ lastUsedLE c2wB.lastUsedAt b.lastUsedAt)) :=
  claim_C2_selection_order [c2wA, c2wB] "gpt-5.2" c2wB (by decide)

/-- C1 (amended): when the sticky-bound account is schedulable, on the
OpenAI platform and supports the requested model, the selector returns it
and refreshes the binding TTL; otherwise the binding is left in place (the
selector never issues a delete) and candidate selection proceeds, at most
overwriting the binding with the newly selected account. -/
theorem claim_C1_sticky_behavior :
    (∀ (env : SelectorEnv) (h m : String) (id : Int) (a : Account),
        h ≠ "" → env.stickyID = some id → id > 0 → env.getByID id = some a →
        (a.isSchedulable && a.isOpenAI && (m == "" || a.isModelSupported m)) = true →
        selectAccountForModel env h m = (some a, [CacheOp.refreshTTL (sessionKey h)]))
    ∧ ∀ (env : SelectorEnv) (h m k : String),
        CacheOp.deleteSession k ∉ (selectAccountForModel env h m).2 := by
  constructor
  · intro env h m id a hh hsid hid hget hcheck
    unfold selectAccountForModel
    simp only [hsid, hh, hid, hget, hcheck, ne_eq, not_false_iff, if_true, if_pos]
  · intro env h m k
    unfold selectAccountForModel
    dsimp only
    split
    · simp
    · split
      · simp
      · split <;> simp

/-- C1 counterexample: the sticky binding points at an unschedulable
account, yet the selector issues no cache delete: with no other candidate
the stale binding survives the call untouched. -/
theorem claim_C1_counterexample :
    c1Env.stickyID = some c1StickyAccount.id ∧
    c1StickyAccount.isSchedulable = false ∧
    selectAccountForModel c1Env "sess" "" = (none, []) := by decide

/-- C1 witness: the sticky-hit branch of the amended theorem applied to a
concrete environment. -/
theorem claim_C1_witness :
    selectAccountForModel c1wEnv "sess" "gpt-5.2" =
      (some c1wAccount, [CacheOp.refreshTTL (sessionKey "sess")]) :=
  claim_C1_sticky_behavior.1 c1wEnv "sess" "gpt-5.2" 7 c1wAccount (by decide)
    rfl (by decide) (by decide) (by decide)

/-- C10: normalizeCodexModel is total and never rejects: every input maps
into the canonical model set (hence to a non-empty name); the empty string
maps to gpt-5.1, and any input whose stripped model id matches neither the
explicit map (case-insensitively) nor any substring fallback rule also maps
to gpt-5.1. -/
theorem claim_C10_normalize_total :
    (∀ s : String, normalizeCodexModel s ∈ canonicalCodexModels ∧ normalizeCodexModel s ≠ "")
    ∧ normalizeCodexModel "" = "gpt-5.1"
    ∧ ∀ s : String,
        getNormalizedCodexModel (if strContains s "/" = true then afterLastSlash s else s) = "" →
        matchesAnyFallback (if strContains s "/" = true then afterLastSlash s else s) = false →
        normalizeCodexModel s = "gpt-5.1" := by
  refine ⟨fun s => ⟨normalizeCodexModel_mem s, ?_⟩, rfl,
    fun s h1 h2 => normalizeCodexModel_default s h1 h2⟩
  have hm := normalizeCodexModel_mem s
  intro he
  rw [he] at hm
  exact absurd hm (by decide)

/-- C10 witness: a model name matching no rule normalizes to gpt-5.1. -/
theorem claim_C10_witness :
    normalizeCodexModel "weird-model" = "gpt-5.1" :=
  claim_C10_normalize_total.2.2 "weird-model" (by decide) (by decide)


/-! ## Supporting lemmas and claims for orphaned tool outputs -/
theorem orphanCheck2 (cid : String) (A B : List String) :
    (cid == "" || !(A.contains cid || B.contains cid)) = true ↔ (cid = "" ∨ cid ∉ A ++ B) := by
  simp [List.contains, List.elem_iff, not_or]

theorem orphanCheck1 (cid : String) (A : List String) :
    (cid == "" || !(A.contains cid)) = true ↔ (cid = "" ∨ cid ∉ A) := by
  simp [List.contains, List.elem_iff]

theorem orphanTransformItem_spec (input : List Item) (i : Item) :
    (isToolOutputType i.type_ = true →
      ((getCallID i ≠ "" ∧ getCallID i ∈ matchingIDsFor input i.type_) →
          orphanTransformItem input i = OutItem.orig i) ∧
      ((getCallID i = "" ∨ getCallID i ∉ matchingIDsFor input i.type_) →
          orphanTransformItem input i = convertOrphanedOutputToMessage i (getCallID i))) ∧
    (isToolOutputType i.type_ = false → orphanTransformItem input i = OutItem.orig i) := by
  constructor
  · intro htype
    by_cases h1 : i.type_ = "function_call_output"
    · constructor
      · rintro ⟨hne, hmem⟩
        have hm2 : getCallID i ∈
            callIDsOfType "function_call" input ++ callIDsOfType "local_shell_call" input := by
          simpa [matchingIDsFor, h1] using hmem
        unfold orphanTransformItem
        simp only [h1, beq_self_eq_true, if_true]
        rw [if_neg]
        rw [orphanCheck2]
        push_neg
        exact ⟨hne, hm2⟩
      · intro hor
        have hor2 : getCallID i = "" ∨ getCallID i ∉
            callIDsOfType "function_call" input ++ callIDsOfType "local_shell_call" input := by
          rcases hor with h | h
          · exact Or.inl h
          · exact Or.inr (by simpa [matchingIDsFor, h1] using h)
        unfold orphanTransformItem
        simp only [h1, beq_self_eq_true, if_true]
        rw [if_pos ((orphanCheck2 _ _ _).mpr hor2)]
    · by_cases h2 : i.type_ = "custom_tool_call_output"
      · constructor
        · rintro ⟨hne, hmem⟩
          have hm2 : getCallID i ∈ callIDsOfType "custom_tool_call" input := by
            simpa [matchingIDsFor, h1, h2] using hmem
          unfold orphanTransformItem
          simp only [h1, h2, beq_self_eq_true, if_true, beq_iff_eq, if_neg, ite_false]
          rw [if_neg (by simp [h1]), if_neg]
          rw [orphanCheck1]
          push_neg
          exact ⟨hne, hm2⟩
        · intro hor
          have hor2 : getCallID i = "" ∨ getCallID i ∉ callIDsOfType "custom_tool_call" input := by
            rcases hor with h | h
            · exact Or.inl h
            · exact Or.inr (by simpa [matchingIDsFor, h1, h2] using h)
          unfold orphanTransformItem
          rw [if_neg (by simp [h1])]
          simp only [h2, beq_self_eq_true, if_true]
          rw [if_pos ((orphanCheck1 _ _).mpr hor2)]
      · by_cases h3 : i.type_ = "local_shell_call_output"
        · constructor
          · rintro ⟨hne, hmem⟩
            have hm2 : getCallID i ∈ callIDsOfType "local_shell_call" input := by
              simpa [matchingIDsFor, h1, h2, h3] using hmem
            unfold orphanTransformItem
            rw [if_neg (by simp [h1]), if_neg (by simp [h2])]
            simp only [h3, beq_self_eq_true, if_true]
            rw [if_neg]
            rw [orphanCheck1]
            push_neg
            exact ⟨hne, hm2⟩
          · intro hor
            have hor2 : getCallID i = "" ∨ getCallID i ∉ callIDsOfType "local_shell_call" input := by
              rcases hor with h | h
              · exact Or.inl h
              · exact Or.inr (by simpa [matchingIDsFor, h1, h2, h3] using h)
            unfold orphanTransformItem
            rw [if_neg (by simp [h1]), if_neg (by simp [h2])]
            simp only [h3, beq_self_eq_true, if_true]
            rw [if_pos ((orphanCheck1 _ _).mpr hor2)]
        · exfalso
          simp [isToolOutputType, h1, h2, h3] at htype
  · intro hfalse
    simp only [isToolOutputType, Bool.or_eq_false_iff, beq_eq_false_iff_ne, ne_eq] at hfalse
    obtain ⟨⟨f1, f2⟩, f3⟩ := hfalse
    unfold orphanTransformItem
    rw [if_neg (by simp [f1]), if_neg (by simp [f2]), if_neg (by simp [f3])]


/-- C3 (amended): in the transformed input list, every tool output item
whose call id matches no call item anywhere in the same list (not merely
preceding it) is converted to the plain assistant message built by
convertOrphanedOutputToMessage with its text truncated to 16000
characters; outputs with a matching call, and all other items, are left
unchanged in place. -/
theorem claim_C3_orphan_outputs (input : List Item) :
    (normalizeOrphanedToolOutputs input).length = input.length ∧
    ∀ (k : Nat) (hk : k < input.length) (hk2 : k < (normalizeOrphanedToolOutputs input).length),
      (isToolOutputType (input.get ⟨k, hk⟩).type_ = true →
        ((getCallID (input.get ⟨k, hk⟩) ≠ "" ∧
            getCallID (input.get ⟨k, hk⟩) ∈ matchingIDsFor input (input.get ⟨k, hk⟩).type_) →
          (normalizeOrphanedToolOutputs input).get ⟨k, hk2⟩ = OutItem.orig (input.get ⟨k, hk⟩)) ∧
        ((getCallID (input.get ⟨k, hk⟩) = "" ∨
            getCallID (input.get ⟨k, hk⟩) ∉ matchingIDsFor input (input.get ⟨k, hk⟩).type_) →
          (normalizeOrphanedToolOutputs input).get ⟨k, hk2⟩ =
            convertOrphanedOutputToMessage (input.get ⟨k, hk⟩) (getCallID (input.get ⟨k, hk⟩)))) ∧
      (isToolOutputType (input.get ⟨k, hk⟩).type_ = false →
        (normalizeOrphanedToolOutputs input).get ⟨k, hk2⟩ = OutItem.orig (input.get ⟨k, hk⟩)) := by
  refine ⟨by simp [normalizeOrphanedToolOutputs], ?_⟩
  intro k hk hk2
  have hget : (normalizeOrphanedToolOutputs input).get ⟨k, hk2⟩ =
      orphanTransformItem input (input.get ⟨k, hk⟩) := by
    simp [normalizeOrphanedToolOutputs]
  rw [hget]
  exact orphanTransformItem_spec input (input.get ⟨k, hk⟩)



/-- C3 counterexample: an output whose matching call appears only later in
the list has no matching preceding call, yet it is left unchanged, because
the code collects call ids from the whole list. -/
theorem claim_C3_counterexample :
    normalizeOrphanedToolOutputs [c3Out, c3Call] = [OutItem.orig c3Out, OutItem.orig c3Call] ∧
    c3Out.type_ = "function_call_output" ∧ c3Call.type_ = "function_call" ∧
    getCallID c3Out = getCallID c3Call := by decide


/-- C3 witness: the amended theorem applied to a one-element list holding
an orphaned custom tool output. -/
theorem claim_C3_witness :
    (normalizeOrphanedToolOutputs [c3wItem]).get ⟨0, by decide⟩ =
      convertOrphanedOutputToMessage c3wItem (getCallID c3wItem) :=
  (((claim_C3_orphan_outputs [c3wItem]).2 0 (by decide) (by decide)).1 (by decide)).2
    (by decide)


/-! ## Supporting lemmas and claims for upstream headers -/
theorem find?_filter_ne {m : HMap} {k k' : String} (h : k' ≠ k) :
    (m.filter (fun p => !(p.1 == k'))).find? (fun p => p.1 == k) =
      m.find? (fun p => p.1 == k) := by
  induction m with
  | nil => rfl
  | cons q t ih =>
    by_cases hq : q.1 = k
    · have h1 : (q.1 == k') = false := beq_false_of_ne (by rw [hq]; exact Ne.symm h)
      have h2 : (q.1 == k) = true := by simp [hq]
      simp [List.filter_cons, List.find?_cons, h1, h2]
    · have h2 : (q.1 == k) = false := beq_false_of_ne hq
      by_cases h1 : q.1 = k'
      · simp [List.filter_cons, List.find?_cons, h1, h2, ih, beq_false_of_ne h]
      · have h1' : (q.1 == k') = false := beq_false_of_ne h1
        simp [List.filter_cons, List.find?_cons, h1', h2, ih]

theorem hvals_hset_self (m : HMap) (k v : String) : hvals (hset m k v) k = [v] := by
  simp [hvals, hset, List.find?_cons]

theorem hvals_hset_ne (m : HMap) {k k' : String} (h : k' ≠ k) (v : String) :
    hvals (hset m k' v) k = hvals m k := by
  have h1 : (k' == k) = false := beq_false_of_ne h
  simp [hvals, hset, List.find?_cons, h1, find?_filter_ne h]

theorem hvals_hadd_ne (m : HMap) {k k' : String} (h : k' ≠ k) (v : String) :
    hvals (hadd m k' v) k = hvals m k := by
  have h1 : (k' == k) = false := beq_false_of_ne h
  simp [hvals, hadd, List.find?_cons, h1, find?_filter_ne h]

theorem whitelistFold_preserves {k : String}
    (hk : openaiAllowedHeaders.contains k = false) :
    ∀ (inbound : HMap) (m : HMap), hvals (whitelistFold inbound m) k = hvals m k := by
  intro inbound
  induction inbound with
  | nil => intro m; rfl
  | cons p t ih =>
    intro m
    unfold whitelistFold
    rw [List.foldl_cons]
    by_cases hp : openaiAllowedHeaders.contains (lowerStr p.1) = true
    · rw [if_pos hp]
      have hne : lowerStr p.1 ≠ k := by
        intro he
        rw [he] at hp
        rw [hp] at hk
        cases hk
      have hinner : ∀ (vs : List String) (m : HMap),
          hvals (vs.foldl (fun m v => hadd m (lowerStr p.1) v) m) k = hvals m k := by
        intro vs
        induction vs with
        | nil => intro m; rfl
        | cons v vt ihv =>
          intro m
          rw [List.foldl_cons, ihv, hvals_hadd_ne m hne]
      rw [show (List.foldl
          (fun m p =>
            if openaiAllowedHeaders.contains (lowerStr p.1) = true then
              p.2.foldl (fun m v => hadd m (lowerStr p.1) v) m
            else m) (p.2.foldl (fun m v => hadd m (lowerStr p.1) v) m) t) =
          whitelistFold t (p.2.foldl (fun m v => hadd m (lowerStr p.1) v) m) from rfl]
      rw [ih, hinner]
    · rw [if_neg hp]
      exact ih m


theorem whitelistFold_filter :
    ∀ (inbound : HMap) (m : HMap),
      whitelistFold (inbound.filter (fun p => openaiAllowedHeaders.contains (lowerStr p.1))) m =
        whitelistFold inbound m := by
  intro inbound
  induction inbound with
  | nil => intro m; rfl
  | cons p t ih =>
    intro m
    by_cases hp : openaiAllowedHeaders.contains (lowerStr p.1) = true
    · unfold whitelistFold
      simp only [List.filter_cons, List.foldl_cons, hp, if_true]
      exact ih _
    · simp only [Bool.not_eq_true] at hp
      unfold whitelistFold
      simp only [List.filter_cons, List.foldl_cons, hp, Bool.false_eq_true, if_false]
      exact ih m

theorem hvals_baseHeaders (a : UpstreamAccount) (t : String) (s : Bool) {k : String}
    (h1 : k ≠ "chatgpt-account-id") (h2 : k ≠ "accept") :
    hvals (baseHeaders a t s) k = hvals (hset [] "authorization" ("Bearer " ++ t)) k := by
  unfold baseHeaders
  dsimp only
  split
  · split <;> split <;>
      simp only [hvals_hset_ne _ (Ne.symm h2), hvals_hset_ne _ (Ne.symm h1)]
  · rfl

theorem hvals_finishHeaders (a : UpstreamAccount) (m : HMap) {k : String}
    (h1 : k ≠ "user-agent") (h2 : k ≠ "content-type") :
    hvals (finishHeaders a m) k = hvals m k := by
  unfold finishHeaders
  dsimp only
  split <;> split <;>
    simp only [hvals_hset_ne _ (Ne.symm h2), hvals_hset_ne _ (Ne.symm h1)]

/-- C5: upstream headers carry the replaced authorization value and never a
cookie or x-api-key entry; the whole upstream header set is unchanged when
all non-whitelisted inbound headers are dropped, so inbound Authorization,
Cookie and X-Api-Key values never influence nor appear among the upstream
request headers. -/
theorem claim_C5_header_hygiene (account : UpstreamAccount) (token : String)
    (isStream : Bool) (inbound : HMap) :
    hvals (buildUpstreamHeaders account token isStream inbound) "authorization" =
        ["Bearer " ++ token] ∧
    hvals (buildUpstreamHeaders account token isStream inbound) "cookie" = [] ∧
    hvals (buildUpstreamHeaders account token isStream inbound) "x-api-key" = [] ∧
    buildUpstreamHeaders account token isStream inbound =
      buildUpstreamHeaders account token isStream
        (inbound.filter (fun p => openaiAllowedHeaders.contains (lowerStr p.1))) := by
  have hbase : ∀ k : String, k ≠ "chatgpt-account-id" → k ≠ "accept" → k ≠ "user-agent" →
      k ≠ "content-type" → openaiAllowedHeaders.contains k = false →
      hvals (buildUpstreamHeaders account token isStream inbound) k =
        hvals (hset [] "authorization" ("Bearer " ++ token)) k := by
    intro k hk1 hk2 hk3 hk4 hk5
    unfold buildUpstreamHeaders
    rw [hvals_finishHeaders _ _ hk3 hk4, whitelistFold_preserves hk5,
      hvals_baseHeaders _ _ _ hk1 hk2]
  refine ⟨?_, ?_, ?_, ?_⟩
  · rw [hbase "authorization" (by decide) (by decide) (by decide) (by decide) (by decide)]
    exact hvals_hset_self _ _ _
  · rw [hbase "cookie" (by decide) (by decide) (by decide) (by decide) (by decide)]
    have hb : (("authorization" : String) == "cookie") = false := by decide
    simp [hvals, hset, List.find?_cons, hb]
  · rw [hbase "x-api-key" (by decide) (by decide) (by decide) (by decide) (by decide)]
    have hb : (("authorization" : String) == "x-api-key") = false := by decide
    simp [hvals, hset, List.find?_cons, hb]
  · unfold buildUpstreamHeaders
    rw [whitelistFold_filter]


/-! ## Supporting lemmas and claims for response model rewriting -/
theorem jlookup_cons_false {p : String × JVal} {t : List (String × JVal)} {k : String}
    (hk : (p.1 == k) = false) : jlookup (p :: t) k = jlookup t k := by
  simp [jlookup, List.find?_cons, hk]

theorem jlookup_cons_true {p : String × JVal} {t : List (String × JVal)} {k : String}
    (hk : (p.1 == k) = true) : jlookup (p :: t) k = some p.2 := by
  simp [jlookup, List.find?_cons, hk]

theorem jlookup_jset_self {fields : List (String × JVal)} {k : String} {v0 : JVal}
    (h : jlookup fields k = some v0) (v : JVal) :
    jlookup (jset fields k v) k = some v := by
  induction fields with
  | nil => simp [jlookup] at h
  | cons p t ih =>
    cases hk : (p.1 == k) with
    | true =>
      rw [jset, if_pos hk, jlookup_cons_true (by simp)]
    | false =>
      rw [jlookup_cons_false hk] at h
      rw [jset, if_neg (by simp [hk]), jlookup_cons_false hk]
      exact ih h

theorem jlookup_jset_ne {fields : List (String × JVal)} {k k' : String}
    (h : k' ≠ k) (v : JVal) :
    jlookup (jset fields k' v) k = jlookup fields k := by
  have h2 : ((k' : String) == k) = false := beq_false_of_ne h
  induction fields with
  | nil => rfl
  | cons p t ih =>
    cases hk : (p.1 == k') with
    | true =>
      have h3 : (p.1 == k) = false := by
        rw [beq_iff_eq] at hk
        rw [hk]
        exact h2
      rw [jset, if_pos hk, jlookup_cons_false h2, jlookup_cons_false h3]
      exact ih
    | false =>
      cases hk2 : (p.1 == k) with
      | true =>
        rw [jset, if_neg (by simp [hk]), jlookup_cons_true hk2, jlookup_cons_true hk2]
      | false =>
        rw [jset, if_neg (by simp [hk]), jlookup_cons_false hk2, jlookup_cons_false hk2]
        exact ih


theorem replaceNestedModel_hit {event rfields : List (String × JVal)} {m fromM toM : String}
    (hresp : jlookup event "response" = some (JVal.obj rfields))
    (hm : jlookup rfields "model" = some (JVal.str m)) (he : m = fromM) :
    replaceNestedModel event fromM toM =
      jset event "response" (JVal.obj (jset rfields "model" (JVal.str toM))) := by
  unfold replaceNestedModel
  rw [hresp]
  dsimp only
  rw [hm]
  dsimp only
  rw [if_pos (by simp [he])]

theorem replaceModelInSSEEvent_nested {event : List (String × JVal)} {fromM toM : String}
    (h1 : ∀ m', jlookup event "model" = some (JVal.str m') → m' ≠ fromM) :
    replaceModelInSSEEvent event fromM toM = replaceNestedModel event fromM toM := by
  unfold replaceModelInSSEEvent
  cases hev : jlookup event "model" with
  | none => rfl
  | some v =>
    cases v with
    | str s =>
      dsimp only
      rw [if_neg (by simp [h1 s hev])]
    | obj f => rfl
    | other n => rfl

/-- C6 (amended): in an SSE event a top-level model field equal to the
mapped model is rewritten to the originally requested model; when the
top-level field does not match, a nested response.model equal to the
mapped model is rewritten instead (never both).  In a non-streaming body
only the top-level model field is rewritten: a body whose mapped model
appears only under response.model is returned unchanged. -/
theorem claim_C6_model_rewrite (fromM toM : String) :
    (∀ (event : List (String × JVal)) (m : String),
        jlookup event "model" = some (JVal.str m) → m = fromM →
        jlookup (replaceModelInSSEEvent event fromM toM) "model" = some (JVal.str toM)) ∧
    (∀ (event rfields : List (String × JVal)) (m : String),
        (∀ m', jlookup event "model" = some (JVal.str m') → m' ≠ fromM) →
        jlookup event "response" = some (JVal.obj rfields) →
        jlookup rfields "model" = some (JVal.str m) → m = fromM →
        jlookup (replaceModelInSSEEvent event fromM toM) "response" =
            some (JVal.obj (jset rfields "model" (JVal.str toM))) ∧
          jlookup (jset rfields "model" (JVal.str toM)) "model" = some (JVal.str toM)) ∧
    (∀ (body : List (String × JVal)) (m : String),
        jlookup body "model" = some (JVal.str m) → m = fromM →
        jlookup (replaceModelInResponseBody body fromM toM) "model" = some (JVal.str toM)) ∧
    (∀ body : List (String × JVal),
        (∀ m', jlookup body "model" = some (JVal.str m') → m' ≠ fromM) →
        replaceModelInResponseBody body fromM toM = body) := by
  refine ⟨?_, ?_, ?_, ?_⟩
  · intro event m h hm
    subst hm
    unfold replaceModelInSSEEvent
    rw [h]
    dsimp only
    rw [if_pos (by simp)]
    exact jlookup_jset_self h _
  · intro event rfields m h1 hresp hm he
    rw [replaceModelInSSEEvent_nested h1, replaceNestedModel_hit hresp hm he]
    exact ⟨jlookup_jset_self hresp _, jlookup_jset_self hm _⟩
  · intro body m h hm
    subst hm
    unfold replaceModelInResponseBody
    rw [h]
    dsimp only
    rw [if_pos (by simp)]
    exact jlookup_jset_self h _
  · intro body h1
    unfold replaceModelInResponseBody
    cases hb : jlookup body "model" with
    | none => rfl
    | some v =>
      cases v with
      | str s =>
        dsimp only
        rw [if_neg (by simp [h1 s hb])]
      | obj f => rfl
      | other n => rfl


/-- C6 counterexample: a non-streaming body carrying the mapped model only
in the nested response.model field is forwarded unchanged, so the client
observes the mapped model, not the originally requested one. -/
theorem claim_C6_counterexample :
    replaceModelInResponseBody c6Body "gpt-5.2" "my-model" = c6Body ∧
    jlookup c6Body "response" = some (JVal.obj [("model", JVal.str "gpt-5.2")]) ∧
    ("gpt-5.2" : String) ≠ "my-model" :=
  ⟨rfl, rfl, by decide⟩


/-- C6 witness: the top-level rewrite applied to a concrete event. -/
theorem claim_C6_witness :
    jlookup (replaceModelInSSEEvent c6Event "gpt-5.2" "my-model") "model" =
      some (JVal.str "my-model") :=
  (claim_C6_model_rewrite "gpt-5.2" "my-model").1 c6Event "gpt-5.2" rfl rfl


/-! ## Claims for streaming, admission, passthrough and image pricing -/

/-- C7: evaluation at the failing input of the client-disconnect test. When the client writer fails after the first line, handleStreamingResponse returns immediately with a write error and zero usage, although the same upstream stream carries a response.completed usage event that a full read (second conjunct) would have collected. The code therefore does not continue consuming upstream after a client write failure. -/
theorem claim_C7_write_failure_aborts :
    handleStreamingResponse failAfterOne c7Lines =
      ⟨⟨0, 0, 0, 0⟩, some 0, true⟩ ∧
    handleStreamingResponse (fun _ => true) c7Lines =
      ⟨⟨11, 7, 0, 3⟩, some 0, false⟩ := by decide

/-- C8 (amended): a cache error on the wait-queue counter is fail-open (the request proceeds exactly as if the counter succeeded), while an error acquiring the user or the account concurrency slot is fail-closed and is returned as HTTP 429 rate_limit_error, never silently bypassed: a forwarded outcome implies both slot acquisitions succeeded. -/
theorem claim_C8_admission_failures :
    (∀ userSlotErr accountSlotErr : Bool,
        admissionPipeline none userSlotErr accountSlotErr =
          admissionPipeline (some true) userSlotErr accountSlotErr) ∧
    (∀ (incrWait : Option Bool) (accountSlotErr : Bool), incrWait ≠ some false →
        admissionPipeline incrWait true accountSlotErr =
          AdmissionOutcome.reject 429 "rate_limit_error"
            "Concurrency limit exceeded for user, please retry later") ∧
    (∀ incrWait : Option Bool, incrWait ≠ some false →
        admissionPipeline incrWait false true =
          AdmissionOutcome.reject 429 "rate_limit_error"
            "Concurrency limit exceeded for account, please retry later") ∧
    (∀ (incrWait : Option Bool) (userSlotErr accountSlotErr : Bool),
        admissionPipeline incrWait userSlotErr accountSlotErr = AdmissionOutcome.forwarded →
        userSlotErr = false ∧ accountSlotErr = false) := by
  refine ⟨?_, ?_, ?_, ?_⟩
  · intro u a
    rfl
  · intro iw a hiw
    cases iw with
    | none => rfl
    | some b =>
      cases b with
      | false => exact absurd rfl hiw
      | true => rfl
  · intro iw hiw
    cases iw with
    | none => rfl
    | some b =>
      cases b with
      | false => exact absurd rfl hiw
      | true => rfl
  · intro iw u a h
    cases iw with
    | none =>
      cases u <;> cases a <;> first | exact ⟨rfl, rfl⟩ | exact absurd h (by decide)
    | some b =>
      cases b <;> cases u <;> cases a <;>
        first | exact ⟨rfl, rfl⟩ | exact absurd h (by decide)

/-- C8 counterexample: a user-slot acquisition error produces HTTP 429, not the HTTP 503 the claim states. -/
theorem claim_C8_counterexample :
    admissionPipeline (some true) true false =
      AdmissionOutcome.reject 429 "rate_limit_error"
        "Concurrency limit exceeded for user, please retry later" ∧
    (429 : Nat) ≠ 503 := by decide

/-- C8 witness: the account-slot fail-closed branch of the amended theorem at a concrete input. -/
theorem claim_C8_witness :
    admissionPipeline (some true) false true =
      AdmissionOutcome.reject 429 "rate_limit_error"
        "Concurrency limit exceeded for account, please retry later" :=
  claim_C8_admission_failures.2.2.1 (some true) (by decide)

/-- C4: in passthrough mode, a Codex-family model requested by an official Codex client with empty instructions is rejected locally with status 403 and a message containing the documented phrase, and the outcome is a rejection, not an upstream call. -/
theorem claim_C4_passthrough_missing_instructions
    (codexCliOnly : Bool) (model ua instructions : String)
    (hm : isCodexFamilyModel model = true)
    (hua : isOfficialCodexClient ua = true)
    (hi : trimSpace instructions = "") :
    ∃ msg, passthroughForward codexCliOnly model ua instructions =
        PassthroughOutcome.reject 403 msg ∧
      strContains msg "requires a non-empty instructions field" = true := by
  refine ⟨"OpenAI passthrough: the Codex model family requires a non-empty instructions field",
    ?_, by decide⟩
  unfold passthroughForward
  rw [if_neg (by simp [hua]), if_pos (by simp [hi, hm, hua])]

/-- C4 witness: the gate applied to the concrete request of the rejection test. -/
theorem claim_C4_witness :
    ∃ msg, passthroughForward false "gpt-5.1-codex-max"
        "codex_cli_rs/0.98.0 (Windows 10.0.19045; x86_64) unknown" "" =
        PassthroughOutcome.reject 403 msg ∧
      strContains msg "requires a non-empty instructions field" = true :=
  claim_C4_passthrough_missing_instructions false "gpt-5.1-codex-max"
    "codex_cli_rs/0.98.0 (Windows 10.0.19045; x86_64) unknown" ""
    (by decide) (by decide) (by decide)

/-- C9 (amended): the default 4K price is twice the default 1K price and the default 2K price is 1.5 times the default 1K price; a group-configured price for the requested size always wins over the default, sizes missing from the group table fall back to the default, and CalculateImageCost charges exactly the unit price so obtained. -/
theorem claim_C9_image_pricing :
    defaultImagePrice "4K" = 2 * defaultImagePrice "1K" ∧
    defaultImagePrice "2K" = (3 / 2) * defaultImagePrice "1K" ∧
    (∀ (cfg : ImagePriceConfig) (p : ℚ), cfg.price1K = some p →
        getImageUnitPrice "1K" (some cfg) = p) ∧
    (∀ (cfg : ImagePriceConfig) (p : ℚ), cfg.price2K = some p →
        getImageUnitPrice "2K" (some cfg) = p) ∧
    (∀ (cfg : ImagePriceConfig) (p : ℚ), cfg.price4K = some p →
        getImageUnitPrice "4K" (some cfg) = p) ∧
    (∀ cfg : ImagePriceConfig, cfg.price2K = none →
        getImageUnitPrice "2K" (some cfg) = defaultImagePrice "2K") ∧
    (∀ (size : String) (groupConfig : Option ImagePriceConfig),
        CalculateImageCost size 1 groupConfig 1 =
          ⟨getImageUnitPrice size groupConfig, getImageUnitPrice size groupConfig⟩) := by
  refine ⟨?_, ?_, ?_, ?_, ?_, ?_, ?_⟩
  · simp [defaultImagePrice]
    ring
  · simp [defaultImagePrice]
    ring
  · intro cfg p hp
    simp [getImageUnitPrice, hp]
  · intro cfg p hp
    simp [getImageUnitPrice, hp]
  · intro cfg p hp
    simp [getImageUnitPrice, hp]
  · intro cfg hp
    simp [getImageUnitPrice, hp]
  · intro size groupConfig
    simp [CalculateImageCost]

/-- C9 counterexample: the default 4K price is 0.268, but twice the default 2K price is 0.402, so 4K is not twice the 2K price as claimed. -/
theorem claim_C9_counterexample :
    getImageUnitPrice "4K" none = 268 / 1000 ∧
    getImageUnitPrice "2K" none * 2 = 402 / 1000 ∧
    (268 / 1000 : ℚ) ≠ 402 / 1000 := by
  refine ⟨?_, ?_, by norm_num⟩
  · simp [getImageUnitPrice, defaultImagePrice, defaultImagePrice1K]
    norm_num
  · simp [getImageUnitPrice, defaultImagePrice, defaultImagePrice1K]
    norm_num

/-- C9 witness: the group-fallback clause of the amended theorem at a concrete partial group configuration. -/
theorem claim_C9_witness :
    getImageUnitPrice "2K" (some ⟨some (10 / 100), none, none⟩) = defaultImagePrice "2K" :=
  claim_C9_image_pricing.2.2.2.2.2.1 ⟨some (10 / 100), none, none⟩ rfl

end Sub2Api
